import Mathlib

/-!
Verification of the `ufot.widgets` module (file `ufot/widgets.py`).

The module is a thin GUI layer: two free array functions (`remove_extrema`,
`create_volume`), a TIFF reader wrapper (`read_tiff`), and four widgets
(`ProjectionViewer`, `SliceViewer`, `OverlapViewer`, `VolumeViewer`), each a
record of mutable state (a slider, loaded data references, the currently
displayed image) driven by `load_*`/`set_images`/`update_image` methods.

Modelling conventions:
* NumPy floating point scalars are modelled as exact rationals `ℚ`; the
  Python-2 integer division `a / b` on ints is Lean's `Int` division.
* A 2-D array is a list of rows, `List (List ℚ)`; a flattened array (as
  `np.percentile` and `np.roll` without an axis see it, C order) is `List ℚ`.
* External readers (`tifffile`, `dxchange`) are environments: functions from
  a filename to the array/dataset stored there.
* Qt sliders hold an integer range and a position clamped into the range.
* NumPy reduction errors on empty arrays (`min` of a zero-size array raised
  by `create_volume`) are modelled with `Option`.
* In-place mutation (`remove_extrema` writes through the views handed to it
  by `OverlapViewer.set_images`) is modelled in namespace `Mem` with an
  explicit store of buffers and strided views carrying an index map.
-/

set_option maxHeartbeats 1600000

namespace Ufot

/-- A 2-D image frame: a list of rows of rational samples. -/
abbrev Image := List (List ℚ)

/-! ### np.percentile (default linear interpolation) -/

/-- The flattened data in nondecreasing order, the first step of
`np.percentile`. -/
def sortedOf (l : List ℚ) : List ℚ := l.insertionSort (fun a b => a ≤ b)

/-- Linear interpolation of a sorted sample list `s` at the virtual (possibly
fractional) index `pos`, as `np.percentile` computes it: with `i = ⌊pos⌋`, the
value is `s[i] + (pos - i) * (s[min (i+1) (n-1)] - s[i])`. -/
def interpAt (s : List ℚ) (pos : ℚ) : ℚ :=
  s.getD (Rat.floor pos).toNat 0 +
    (pos - ((Rat.floor pos).toNat : ℚ)) *
      (s.getD (min ((Rat.floor pos).toNat + 1) (s.length - 1)) 0 -
        s.getD (Rat.floor pos).toNat 0)

/-- `np.percentile(data, q)` with the default (linear) interpolation: the
sorted flattened data evaluated at virtual index `q * (n - 1) / 100`.  Empty
data, where NumPy only warns and yields NaN, is mapped to `0`; every use in
this module is vacuous on empty data. -/
def percentile (l : List ℚ) (q : ℚ) : ℚ :=
  if l.length = 0 then 0
  else interpAt (sortedOf l) (q * ((l.length : ℚ) - 1) / 100)

/-! ### remove_extrema -/

/-- `remove_extrema(data)`: `upper`/`lower` are the 99th/1st percentiles of
the data, then `data[data > upper] = upper` and `data[data < lower] = lower`
clamp the outliers elementwise.  The operation is elementwise at any array
rank; this is its action on the flattened data. -/
def remove_extrema (data : List ℚ) : List ℚ :=
  let upper := percentile data 99
  let lower := percentile data 1
  (data.map (fun x => if upper < x then upper else x)).map
    (fun x => if x < lower then lower else x)

/-- `remove_extrema` on a 2-D array: the percentile thresholds are taken over
the whole (flattened) array and the clamping is elementwise. -/
def remove_extrema2 (m : Image) : Image :=
  let upper := percentile m.flatten 99
  let lower := percentile m.flatten 1
  (m.map (List.map (fun x => if upper < x then upper else x))).map
    (List.map (fun x => if x < lower then lower else x))

/-! ### np.roll and create_volume -/

/-- `np.roll(l, k)` along one axis: element `i` of the result is element
`(i - k) mod n` of `l`.  `List.rotate` moves the first `m` elements to the
back, so rolling by `k` is rotating by `(-k) mod n`. -/
def npRoll {α : Type} (k : ℤ) (l : List α) : List α :=
  if l.length = 0 then l
  else l.rotate ((-k % (l.length : ℤ)).toNat)

/-- The squared gradient `(data - np.roll(data, 1)) ** 2` over the flattened
data, as `create_volume` computes it. -/
def gradientOf (data : List ℚ) : List ℚ :=
  List.zipWith (fun a b => (a - b) ^ 2) data (npRoll 1 data)

/-- `min` of a nonempty array's elements (`ndarray.min()`); `0` on empty,
where NumPy raises instead (callers guard for that). -/
def listMin : List ℚ → ℚ
  | [] => 0
  | x :: xs => xs.foldl min x

/-- `max` of a nonempty array's elements (`ndarray.max()`); `0` on empty. -/
def listMax : List ℚ → ℚ
  | [] => 0
  | x :: xs => xs.foldl max x

/-- The normalized opacity channel of `create_volume`:
`(gradient - gradient.min()) / (gradient.max() - gradient.min()) * 255`. -/
def normGradient (data : List ℚ) : List ℚ :=
  let g := gradientOf data
  g.map (fun x => (x - listMin g) / (listMax g - listMin g) * 255)

/-- Truncation of a rational toward zero, the C-style float-to-int
conversion underlying NumPy's cast to `np.ubyte`. -/
def ratTrunc (x : ℚ) : ℤ :=
  if 0 ≤ x then Rat.floor x else -(Rat.floor (-x))

/-- Conversion of a rational sample to `np.ubyte`: truncate toward zero and
reduce modulo 256 (the wrap-around the 8-bit store performs). -/
def toUbyte (x : ℚ) : ℕ := (ratTrunc x % 256).toNat

/-- `create_volume(data)` over the flattened data together with its shape:
the squared gradient is normalized to `[0, 255]` and the output of shape
`data.shape + (4,)` holds `(data, data, data, gradient)` per element, each
channel cast to `np.ubyte`.  `gradient.min()` on a zero-size array raises a
`ValueError` in NumPy; that is the `none` case. -/
def create_volume (shape : List ℕ) (data : List ℚ) :
    Option (List ℕ × List (ℕ × ℕ × ℕ × ℕ)) :=
  if data.isEmpty then none
  else
    some (shape ++ [4],
      (data.zip (normGradient data)).map
        (fun p => (toUbyte p.1, toUbyte p.1, toUbyte p.1, toUbyte p.2)))

/-! ### read_tiff and elementwise 2-D helpers -/

/-- `transposeLL m` is `m.T` for a rectangular 2-D array stored as a list of
rows: column `j` of `m` becomes row `j`. -/
def transposeLL (m : Image) : Image :=
  (List.range (m.headD []).length).map (fun j => m.map (fun row => row.getD j 0))

/-- `np.flipud`: reverse the order of the rows. -/
def flipud (m : Image) : Image := m.reverse

/-- `read_tiff(filename)`: the array stored in the file, transposed.  The
TIFF reader is the environment `env`. -/
def read_tiff (env : String → Image) (filename : String) : Image :=
  transposeLL (env filename)

/-- Elementwise difference of two images (`moved - first`). -/
def sub2 (a b : Image) : Image :=
  List.zipWith (fun ra rb => List.zipWith (fun x y => x - y) ra rb) a b

/-- Elementwise quotient of two images (`proj / flat`). -/
def divImg (a b : Image) : Image :=
  List.zipWith (fun ra rb => List.zipWith (fun x y => x / y) ra rb) a b

/-- The zero array of the same shape as `m`. -/
def zeroLike (m : Image) : Image := m.map (fun row => row.map (fun _ => (0 : ℚ)))

/-- An all-ones image of `r` rows and `c` columns (a flat-field of ones). -/
def onesImg (r c : ℕ) : Image := List.replicate r (List.replicate c 1)

/-- `ndarray.shape` of a 2-D list-of-rows array. -/
def dims2 (m : Image) : ℕ × ℕ := (m.length, (m.headD []).length)

/-! ### The Qt slider -/

/-- The state of a `QSlider`: a range and the current value.  `setRange`
stores the minimum and, per `QAbstractSlider::setRange`, normalizes the
maximum to `max(minimum, maximum)`; `setPos`
(`setSliderPosition`/`setValue`) clamps into the range. -/
structure Slider where
  lo : ℤ
  hi : ℤ
  pos : ℤ
deriving DecidableEq

def Slider.setRange (s : Slider) (a b : ℤ) : Slider :=
  { s with lo := a, hi := max a b }

def Slider.setPos (s : Slider) (v : ℤ) : Slider :=
  { s with pos := max s.lo (min v s.hi) }

/-! ### ProjectionViewer -/

/-- The contents of an APS 32-ID projection dataset file: the `data` array
dimensions (frame count first), the projection frames, the flat/dark frame
stacks and the angle list. -/
structure DxDataset where
  dims : List ℕ
  proj : ℕ → Image
  flats : List Image
  darks : List Image
  theta : List ℚ

/-- `dxchange.read_aps_32id(filenames, proj=(a, b))`: the projection frames
`a, …, b-1` together with the full flat and dark stacks and the angles.  The
HDF reader is the environment `env`. -/
def read_aps_32id (env : String → DxDataset) (filenames : String) (a b : ℕ) :
    List Image × List Image × List Image × List ℚ :=
  ((List.range (b - a)).map (fun k => (env filenames).proj (a + k)),
   (env filenames).flats, (env filenames).darks, (env filenames).theta)

/-- Modelled from the spec: `ufot.util.get_dx_dims` is repository code outside
this file; following the spec, the projection viewer uses it to obtain the
dimensions of the dataset's `data` array, whose first entry is the number of
projection frames. -/
def get_dx_dims (env : String → DxDataset) (filenames : String)
    (_key : String) : List ℕ :=
  (env filenames).dims

/-- The dataset key `'data'` passed to `get_dx_dims`. -/
def dataKey : String := "data"

/-- Python truthiness of `self.filenames` for `ProjectionViewer`: `None` and
the empty string are falsy. -/
def pyTruthy : Option String → Bool
  | none => false
  | some s => s != ""

namespace ProjectionViewer

/-- Mutable state of a `ProjectionViewer`: the slider, the loaded file path,
the flat-field-correction flag and the image pushed to the display item. -/
structure State where
  slider : Slider
  filenames : Option String
  ffc_correction : Bool
  imageItem : Option Image
deriving DecidableEq

/-- The state `__init__` leaves behind: slider range `(0, 0)`, nothing
loaded. -/
def initState : State :=
  { slider := { lo := 0, hi := 0, pos := 0 },
    filenames := none, ffc_correction := false, imageItem := none }

/-- `update_image()`: when a file is loaded, read the single frame at the
slider position, divide by the first flat frame when `ffc_correction` holds,
and push the frame to the display; otherwise do nothing. -/
def update_image (env : String → DxDataset) (st : State) : State :=
  if pyTruthy st.filenames then
    let f := st.filenames.getD default
    let pos := st.slider.pos.toNat
    let r := read_aps_32id env f pos (pos + 1)
    let image :=
      if st.ffc_correction then divImg (r.1.headD []) (r.2.1.headD [])
      else r.1.headD []
    { st with imageItem := some image }
  else st

/-- `load_files(filenames, ffc_correction)`: store the references, set the
slider range to the dataset frame count minus one, reset the position to 0
and render. -/
def load_files (env : String → DxDataset) (st : State) (f : String)
    (ffc : Bool) : State :=
  let st1 := { st with filenames := some f, ffc_correction := ffc }
  let st2 := { st1 with slider :=
      (st1.slider.setRange 0
          (((get_dx_dims env f dataKey).getD 0 0 : ℤ) - 1)).setPos 0 }
  update_image env st2

/-- Moving the slider to `v`: Qt clamps the value into the range and emits
`valueChanged` (running `update_image`) when the value changed. -/
def setValue (env : String → DxDataset) (st : State) (v : ℤ) : State :=
  let s := st.slider.setPos v
  if s.pos = st.slider.pos then { st with slider := s }
  else update_image env { st with slider := s }

end ProjectionViewer

/-! ### SliceViewer -/

namespace SliceViewer

/-- Mutable state of a `SliceViewer`: the slider, the loaded filename list
and the image pushed to the display item. -/
structure State where
  slider : Slider
  filenames : List String
  imageItem : Option Image
deriving DecidableEq

/-- A `SliceViewer` state with nothing loaded (an empty filename list is
falsy in Python, like the missing attribute before `load_files` ran). -/
def emptyState : State :=
  { slider := { lo := 0, hi := 0, pos := 0 }, filenames := [], imageItem := none }

/-- `update_image()`: when the filename list is truthy, read the file at the
slider position from disk and display it; otherwise do nothing. -/
def update_image (env : String → Image) (st : State) : State :=
  if st.filenames.isEmpty then st
  else
    { st with imageItem :=
        (some (read_tiff env (st.filenames.getD st.slider.pos.toNat default))) }

/-- `load_files(filenames)`: store the list, set the slider range to
`len(filenames) - 1`, reset the position to 0 and render. -/
def load_files (env : String → Image) (st : State) (fns : List String) : State :=
  let st1 := { st with filenames := fns }
  let st2 := { st1 with slider :=
      (st1.slider.setRange 0 ((fns.length : ℤ) - 1)).setPos 0 }
  update_image env st2

end SliceViewer

/-! ### OverlapViewer -/

/-- The warning `set_images` logs when the two stored shapes differ. -/
def shapeWarn : String := "Shape of first is different to second"

/-- The warning `update_image` logs before images are set. -/
def noImagesWarn : String := "No images set yet"

namespace OverlapViewer

/-- Mutable state of an `OverlapViewer`: the slider, the two stored
(transposed, clamped, second also flipped) images and the image pushed to
the display item. -/
structure State where
  slider : Slider
  first : Option Image
  second : Option Image
  imageItem : Option Image
deriving DecidableEq

/-- The state `__init__` leaves behind. -/
def initState : State :=
  { slider := { lo := 0, hi := 0, pos := 0 },
    first := none, second := none, imageItem := none }

/-- `update_image()`: with both images set, circularly shift the second along
its first axis by `shape[0] / 2 - pos` and display `moved - first`; with an
image missing, log a warning.  The second component collects log output. -/
def update_image (st : State) : State × List String :=
  match st.first, st.second with
  | some f, some s =>
    let moved := npRoll ((s.length : ℤ) / 2 - st.slider.pos) s
    ({ st with imageItem := some (sub2 moved f) }, [])
  | _, _ => (st, [noImagesWarn])

/-- `set_images(first, second)`: store `remove_extrema(first.T)` and
`remove_extrema(np.flipud(second.T))`, warn when their shapes differ, set the
slider range to `(0, first.shape[0])` with the position at the midpoint
`first.shape[0] / 2`, and render. -/
def set_images (st : State) (f s : Image) : State × List String :=
  let f' := remove_extrema2 (transposeLL f)
  let s' := remove_extrema2 (flipud (transposeLL s))
  let warns := if dims2 f' ≠ dims2 s' then [shapeWarn] else []
  let sl := (st.slider.setRange 0 (f'.length : ℤ)).setPos ((f'.length : ℤ) / 2)
  let st1 := { st with first := some f', second := some s', slider := sl }
  let r := update_image st1
  (r.1, warns ++ r.2)

/-- `set_position(position)`: `slider.setValue(int(position))` followed by an
explicit `update_image()`. -/
def set_position (st : State) (p : ℤ) : State × List String :=
  update_image { st with slider := st.slider.setPos p }

end OverlapViewer

/-! ### VolumeViewer -/

/-- Python slicing `l[::k]` for `k ≥ 1`: the elements whose index is a
multiple of `k`. -/
def everyNth {α : Type} (k : ℕ) (l : List α) : List α :=
  (l.enum.filter (fun p => p.1 % k == 0)).map (fun p => p.2)

/-- `m[::k, ::k]` on a 2-D array: subsample rows and columns by `k`. -/
def subsample2 (k : ℕ) (m : Image) : Image :=
  (everyNth k m).map (fun row => everyNth k row)

/-- The C-order flattened contents of the `(w, h, n)` array that `load_data`
fills by `data[:, :, i] = imgs[i]`: element `(x * h + y) * n + i` is
`imgs[i][x][y]`. -/
def stack3 (w h n : ℕ) (imgs : List Image) : List ℚ :=
  (List.range (w * h * n)).map (fun j =>
    ((imgs.getD (j % n) []).getD (j / (h * n)) []).getD (j / n % h) 0)

/-- The list of subsampled images `load_data` reads from a file list: each
file's array, transposed and subsampled by `step` in both axes. -/
def loadStack (env : String → Image) (step : ℕ) (fns : List String) :
    List Image :=
  fns.map (fun f => subsample2 step (read_tiff env f))

namespace VolumeViewer

/-- `load_data(filenames)` of a `VolumeViewer` constructed with subsampling
`step`: subsample the filename list by `step`, read and subsample each image
by `step` in both axes, stack them along a new third axis into a
`(width, height, num)` volume and hand it to `create_volume`; the result is
the RGBA volume added to the GL view, paired with its shape.  `none` models
the `IndexError` on an empty subsampled list and the failed `data[:, :, i]`
assignment when an image's shape does not match the first image's. -/
def load_data (env : String → Image) (step : ℕ) (filenames : List String) :
    Option (List ℕ × List (ℕ × ℕ × ℕ × ℕ)) :=
  match everyNth step filenames with
  | [] => none
  | f0 :: rest =>
    let imgs := loadStack env step (f0 :: rest)
    let first := imgs.headD []
    let width := first.length
    let height := (first.headD []).length
    let num := rest.length + 1
    if ∀ im ∈ imgs, im.length = width ∧ ∀ row ∈ im, row.length = height then
      create_volume [width, height, num] (stack3 width height num imgs)
    else none

end VolumeViewer

/-! ### Heap model for the in-place behaviour of remove_extrema

NumPy's `first.T` and `np.flipud(second.T)` are views: they are backed by the
caller's buffer, so writing through them mutates the caller's array.  A store
maps buffer ids to flat buffers; a view carries the backing buffer id, its
element count, the map from view index to buffer index, and that map's
inverse (the strides of the view, both ways). -/

namespace Mem

/-- The heap: flat rational buffers addressed by id. -/
abbrev Store := ℕ → List ℚ

/-- A strided view of a stored array: `idx` maps a flat index of the view to
the flat index of the backing buffer and `inv` is its inverse. -/
structure NDView where
  buf : ℕ
  n : ℕ
  idx : ℕ → ℕ
  inv : ℕ → ℕ

/-- The elements an array/view presents, in view order. -/
def readView (σ : Store) (v : NDView) : List ℚ :=
  (List.range v.n).map (fun i => (σ v.buf).getD (v.idx i) 0)

/-- Writing the elements `xs` through a view: buffer position `j` covered by
the view (a view position maps onto it) receives the corresponding element
of `xs`; every other position keeps its value; other buffers are untouched. -/
def writeView (σ : Store) (v : NDView) (xs : List ℚ) : Store :=
  fun b =>
    if b = v.buf then
      (List.range (σ v.buf).length).map (fun j =>
        if v.inv j < v.n ∧ v.idx (v.inv j) = j then xs.getD (v.inv j) 0
        else (σ v.buf).getD j 0)
    else σ b

/-- The view `a.T` of a stored `r × c` array: view position `(x, y)` (flat
`x * r + y` in the transposed `c × r` shape) reads buffer position
`(y, x)` (flat `y * c + x`). -/
def transposeView (r c b : ℕ) : NDView :=
  { buf := b, n := c * r,
    idx := fun i => i % r * c + i / r,
    inv := fun j => j % c * r + j / c }

/-- The view `np.flipud(a.T)` of a stored `r × c` array: row `x` of the
transposed array is row `c - 1 - x` of this view. -/
def flipTransposeView (r c b : ℕ) : NDView :=
  { buf := b, n := c * r,
    idx := fun i => i % r * c + (c - 1 - i / r),
    inv := fun j => (c - 1 - j % c) * r + j / c }

/-- `remove_extrema(data)` acting on a stored array/view: read the elements,
compute the two percentile thresholds, write the clamped elements back in
place (the two masked assignments of the source compose to this single
write), and return the argument array itself. -/
def remove_extrema (σ : Store) (v : NDView) : Store × NDView :=
  let d := readView σ v
  let upper := percentile d 99
  let lower := percentile d 1
  let d2 := (d.map (fun x => if upper < x then upper else x)).map
      (fun x => if x < lower then lower else x)
  (writeView σ v d2, v)

/-- The mutating part of `OverlapViewer.set_images(first, second)`: it hands
`first.T` and `np.flipud(second.T)` — views of the caller's arrays — to
`remove_extrema`.  `r1 × c1` / `r2 × c2` are the shapes of the two stored
arrays.  The returned views are the widget's `self.first`/`self.second`. -/
def set_images (σ : Store) (firstBuf secondBuf r1 c1 r2 c2 : ℕ) :
    Store × NDView × NDView :=
  let p1 := Mem.remove_extrema σ (transposeView r1 c1 firstBuf)
  let p2 := Mem.remove_extrema p1.1 (flipTransposeView r2 c2 secondBuf)
  (p2.1, p1.2, p2.2)

end Mem

/-! ### Concrete instances used by the witness theorems -/

/-- A filename used by witnesses. -/
def fileA : String := "a"

/-- Another filename used by witnesses. -/
def fileB : String := "b"

/-- A TIFF environment holding a 1 × 1 image in every file. -/
def envImg : String → Image := fun _ => [[3]]

/-- A TIFF environment distinguishing the two witness files. -/
def envImg2 : String → Image := fun f => if f = fileA then [[2]] else [[7]]

/-- A projection-dataset environment: ten 1 × 1 frames, flat frame all
ones. -/
def envDx : String → DxDataset := fun _ =>
  { dims := [10], proj := fun k => [[(k : ℚ) + 2]],
    flats := [[[1]]], darks := [], theta := [] }

/-- A heap with two 1 × 2 arrays used by the in-place witness. -/
def storeW : Mem.Store := fun b => if b = 0 then [0, 10] else [5, 7]

/-- A loaded `OverlapViewer` state used by the roll-period witness. -/
def ov5 : OverlapViewer.State :=
  { slider := { lo := 0, hi := 1, pos := 0 },
    first := some [[1]], second := some [[2]], imageItem := none }

/-! ### Facts about percentile -/

lemma getD_map (f : ℚ → ℚ) (l : List ℚ) {i : ℕ} (h : i < l.length) :
    (l.map f).getD i 0 = f (l.getD i 0) := by
  rw [List.getD_eq_getElem _ _ (by simpa using h), List.getD_eq_getElem _ _ h,
    List.getElem_map]

lemma sortedOf_sorted (l : List ℚ) : List.Sorted (fun a b => a ≤ b) (sortedOf l) :=
  List.sorted_insertionSort (fun a b => a ≤ b) l

lemma sortedOf_perm (l : List ℚ) : (sortedOf l).Perm l :=
  List.perm_insertionSort (fun a b => a ≤ b) l

lemma foldl_min_le_init (l : List ℚ) (a : ℚ) : l.foldl min a ≤ a := by
  induction l generalizing a with
  | nil => exact le_refl a
  | cons x xs ih => exact le_trans (ih (min a x)) (min_le_left a x)

lemma foldl_min_le_of_mem {l : List ℚ} {x : ℚ} (h : x ∈ l) :
    ∀ a, l.foldl min a ≤ x := by
  induction l with
  | nil => cases h
  | cons y ys ih =>
    intro a
    rcases List.mem_cons.mp h with rfl | hmem
    · exact le_trans (foldl_min_le_init ys (min a x)) (min_le_right a x)
    · exact ih hmem (min a y)

lemma listMin_le_of_mem {l : List ℚ} {x : ℚ} (h : x ∈ l) : listMin l ≤ x := by
  cases l with
  | nil => cases h
  | cons y ys =>
    rcases List.mem_cons.mp h with rfl | hmem
    · exact foldl_min_le_init ys x
    · exact foldl_min_le_of_mem hmem y

lemma init_le_foldl_max (l : List ℚ) (a : ℚ) : a ≤ l.foldl max a := by
  induction l generalizing a with
  | nil => exact le_refl a
  | cons x xs ih => exact le_trans (le_max_left a x) (ih (max a x))

lemma le_foldl_max_of_mem {l : List ℚ} {x : ℚ} (h : x ∈ l) :
    ∀ a, x ≤ l.foldl max a := by
  induction l with
  | nil => cases h
  | cons y ys ih =>
    intro a
    rcases List.mem_cons.mp h with rfl | hmem
    · exact le_trans (le_max_right a x) (init_le_foldl_max ys (max a x))
    · exact ih hmem (max a y)

lemma le_listMax_of_mem {l : List ℚ} {x : ℚ} (h : x ∈ l) : x ≤ listMax l := by
  cases l with
  | nil => cases h
  | cons y ys =>
    rcases List.mem_cons.mp h with rfl | hmem
    · exact init_le_foldl_max ys x
    · exact le_foldl_max_of_mem hmem y

lemma npRoll_length {α : Type} (k : ℤ) (l : List α) :
    (npRoll k l).length = l.length := by
  unfold npRoll
  split_ifs
  · rfl
  · exact List.length_rotate l _

lemma gradientOf_length (data : List ℚ) :
    (gradientOf data).length = data.length := by
  simp [gradientOf, npRoll_length]

lemma normGradient_length (data : List ℚ) :
    (normGradient data).length = data.length := by
  simp [normGradient, gradientOf_length]

lemma normGradient_mem_bounds (data : List ℚ) :
    ∀ x ∈ normGradient data, 0 ≤ x ∧ x ≤ 255 := by
  intro x hx
  simp only [normGradient, List.mem_map] at hx
  obtain ⟨g, hg, rfl⟩ := hx
  have hmin := listMin_le_of_mem hg
  have hmax := le_listMax_of_mem hg
  by_cases hdiv : listMax (gradientOf data) - listMin (gradientOf data) = 0
  · have hzero : g - listMin (gradientOf data) = 0 := by linarith
    rw [hzero]
    have : listMax (gradientOf data) - listMin (gradientOf data) = 0 := hdiv
    rw [this]
    norm_num
  · have hpos : 0 < listMax (gradientOf data) - listMin (gradientOf data) :=
      lt_of_le_of_ne (by linarith) (Ne.symm hdiv)
    constructor
    · have h1 : 0 ≤ (g - listMin (gradientOf data)) /
          (listMax (gradientOf data) - listMin (gradientOf data)) :=
        div_nonneg (by linarith) (le_of_lt hpos)
      nlinarith
    · have h1 : (g - listMin (gradientOf data)) /
          (listMax (gradientOf data) - listMin (gradientOf data)) ≤ 1 :=
        (div_le_one hpos).mpr (by linarith)
      nlinarith

lemma toUbyte_le_255 (x : ℚ) : toUbyte x ≤ 255 := by
  unfold toUbyte
  have h1 : ratTrunc x % 256 < 256 := Int.emod_lt_of_pos _ (by norm_num)
  omega

/-- Counterexample for C2 as stated: on the empty array the code raises a
`ValueError` (`gradient.min()` on a zero-size array) instead of returning an
output array, so "for every input array" fails at the empty array. -/
theorem claim2_counterexample : create_volume [0] ([] : List ℚ) = none := rfl

/-- Claim C2 (amended): for every nonempty input array, `create_volume`
returns an array whose shape is the input's shape plus one trailing dimension
of size 4, and every value of the alpha channel lies in `[0, 255]` — both the
stored `ubyte` alpha values and the normalized gradient values they are cast
from. -/
theorem claim2_create_volume_alpha (shape : List ℕ) (data : List ℚ)
    (h : data ≠ []) :
    ∃ vol, create_volume shape data = some (shape ++ [4], vol) ∧
      vol.length = data.length ∧
      (∀ e ∈ vol, e.2.2.2 ≤ 255) ∧
      ∀ x ∈ normGradient data, 0 ≤ x ∧ x ≤ 255 := by
  refine ⟨(data.zip (normGradient data)).map
      (fun p => (toUbyte p.1, toUbyte p.1, toUbyte p.1, toUbyte p.2)),
    ?_, ?_, ?_, normGradient_mem_bounds data⟩
  · simp [create_volume, h]
  · simp [List.length_zip, normGradient_length]
  · intro e he
    simp only [List.mem_map] at he
    obtain ⟨p, _, rfl⟩ := he
    exact toUbyte_le_255 _

/-- Witness for C2 at the nonempty array `[1, 5]`. -/
theorem claim2_witness :
    ∃ vol, create_volume [2] [1, 5] = some ([2] ++ [4], vol) ∧
      vol.length = ([1, 5] : List ℚ).length ∧
      (∀ e ∈ vol, e.2.2.2 ≤ 255) ∧
      ∀ x ∈ normGradient [1, 5], 0 ≤ x ∧ x ≤ 255 :=
  claim2_create_volume_alpha [2] [1, 5] (by simp)

/-! ### Facts about npRoll and elementwise differences -/

lemma npRoll_zero {α : Type} (l : List α) : npRoll 0 l = l := by
  unfold npRoll
  split_ifs
  · rfl
  · simp [List.rotate_zero]

lemma npRoll_add_length {α : Type} (k : ℤ) (l : List α) :
    npRoll (k + (l.length : ℤ)) l = npRoll k l := by
  unfold npRoll
  split_ifs with h
  · rfl
  · congr 1
    have heq : -(k + (l.length : ℤ)) = -k + (l.length : ℤ) * (-1) := by ring
    rw [heq, Int.add_mul_emod_self_left]

lemma zipWith_sub_self (r : List ℚ) :
    List.zipWith (fun x y => x - y) r r = r.map (fun _ => (0 : ℚ)) := by
  induction r with
  | nil => rfl
  | cons x xs ih => simp [ih]

lemma sub2_self (m : Image) : sub2 m m = zeroLike m := by
  induction m with
  | nil => rfl
  | cons r rs ih =>
    simp only [sub2, zeroLike] at ih ⊢
    simp only [List.zipWith_cons_cons, List.map_cons]
    rw [zipWith_sub_self, ih]

/-- Counterexample for C3 as stated: loading an empty filename list is a
real load operation (`SliceViewer.__init__` calls `load_files` with whatever
list it received), the code calls `setRange(0, len(filenames) - 1)`, i.e.
`setRange(0, -1)`, and Qt normalizes the maximum to `max(0, -1) = 0` — so the
resulting range is `(0, 0)`, not the claimed `[0, N-1] = [0, -1]`. -/
theorem claim3_counterexample :
    (SliceViewer.load_files envImg SliceViewer.emptyState []).slider.hi = 0 ∧
    (SliceViewer.load_files envImg SliceViewer.emptyState []).slider.hi ≠
      ((([] : List String).length : ℤ) - 1) := by
  decide

/-- Claim C3 (amended): after each load operation with at least one
frame/file the slider range is `[0, N-1]`: `ProjectionViewer.load_files`
sets it to `[0, frame count - 1]` (frame count from `get_dx_dims`),
`SliceViewer.load_files` to `[0, len(filenames) - 1]`, and
`OverlapViewer.set_images` derives the upper end from the stored first
image's extent (`first.shape[0]`, never negative, so unconditionally).
Loading an empty dataset/list instead leaves Qt's normalized range
`(0, 0)`. -/
theorem claim3_slider_range_consistent :
    (∀ (env : String → DxDataset) (st : ProjectionViewer.State) (f : String)
        (ffc : Bool), 1 ≤ (get_dx_dims env f dataKey).getD 0 0 →
      (ProjectionViewer.load_files env st f ffc).slider.lo = 0 ∧
      (ProjectionViewer.load_files env st f ffc).slider.hi =
        ((get_dx_dims env f dataKey).getD 0 0 : ℤ) - 1) ∧
    (∀ (env : String → Image) (st : SliceViewer.State) (fns : List String),
      fns ≠ [] →
      (SliceViewer.load_files env st fns).slider.lo = 0 ∧
      (SliceViewer.load_files env st fns).slider.hi = (fns.length : ℤ) - 1) ∧
    ∀ (st : OverlapViewer.State) (f s : Image),
      (OverlapViewer.set_images st f s).1.slider.lo = 0 ∧
      (OverlapViewer.set_images st f s).1.slider.hi =
        (((OverlapViewer.set_images st f s).1.first.getD []).length : ℤ) := by
  refine ⟨?_, ?_, ?_⟩
  · intro env st f ffc hN
    have h' : (0 : ℤ) ≤ ((get_dx_dims env f dataKey).getD 0 0 : ℤ) - 1 := by
      have h1 : (1 : ℤ) ≤ ((get_dx_dims env f dataKey).getD 0 0 : ℤ) := by
        exact_mod_cast hN
      linarith
    have hN' : 1 ≤ (get_dx_dims env f dataKey)[0]?.getD 0 := by
      have h := hN
      rw [List.getD_eq_getD_get?] at h
      simpa using h
    simp only [ProjectionViewer.load_files, ProjectionViewer.update_image,
      Slider.setRange, Slider.setPos]
    split_ifs <;> simp [max_eq_right h', hN']
  · intro env st fns hne
    have h' : (0 : ℤ) ≤ (fns.length : ℤ) - 1 := by
      have h1 : 0 < fns.length := List.length_pos.mpr hne
      have h2 : (1 : ℤ) ≤ (fns.length : ℤ) := by exact_mod_cast h1
      linarith
    simp only [SliceViewer.load_files, SliceViewer.update_image,
      Slider.setRange, Slider.setPos]
    split_ifs <;> simp [max_eq_right h']
  · intro st f s
    have h' : (0 : ℤ) ≤ ((remove_extrema2 (transposeLL f)).length : ℤ) :=
      Int.natCast_nonneg _
    simp [OverlapViewer.set_images, OverlapViewer.update_image,
      Slider.setRange, Slider.setPos, max_eq_right h']

/-- Witness for C3 (amended): a ten-frame dataset, a one-file list, and a
1 × 1 image pair. -/
theorem claim3_witness :
    ((ProjectionViewer.load_files envDx ProjectionViewer.initState fileA
        true).slider.lo = 0 ∧
      (ProjectionViewer.load_files envDx ProjectionViewer.initState fileA
        true).slider.hi =
        ((get_dx_dims envDx fileA dataKey).getD 0 0 : ℤ) - 1) ∧
    ((SliceViewer.load_files envImg SliceViewer.emptyState
        [fileA]).slider.lo = 0 ∧
      (SliceViewer.load_files envImg SliceViewer.emptyState
        [fileA]).slider.hi = (([fileA] : List String).length : ℤ) - 1) ∧
    ((OverlapViewer.set_images OverlapViewer.initState
        [[1]] [[1]]).1.slider.lo = 0 ∧
      (OverlapViewer.set_images OverlapViewer.initState
        [[1]] [[1]]).1.slider.hi =
        (((OverlapViewer.set_images OverlapViewer.initState
            [[1]] [[1]]).1.first.getD []).length : ℤ)) :=
  ⟨claim3_slider_range_consistent.1 envDx ProjectionViewer.initState fileA
      true (by decide),
   claim3_slider_range_consistent.2.1 envImg SliceViewer.emptyState [fileA]
      (by simp),
   claim3_slider_range_consistent.2.2 OverlapViewer.initState [[1]] [[1]]⟩

/-- Claim C4: when the two images stored by `OverlapViewer.set_images` are
equal, the image displayed at the computed alignment position (the slider
midpoint, where the shift `shape[0] / 2 - pos` is zero) is the zero array. -/
theorem claim4_overlap_aligned_zero (st : OverlapViewer.State) (f s : Image)
    (h : (OverlapViewer.set_images st f s).1.second =
        (OverlapViewer.set_images st f s).1.first) :
    (OverlapViewer.set_images st f s).1.imageItem =
      some (zeroLike ((OverlapViewer.set_images st f s).1.first.getD [])) := by
  simp only [OverlapViewer.set_images, OverlapViewer.update_image,
    Slider.setRange, Slider.setPos, Option.some.injEq] at h ⊢
  rw [h]
  have hml : max (0 : ℤ) ((remove_extrema2 (transposeLL f)).length : ℤ) =
      ((remove_extrema2 (transposeLL f)).length : ℤ) :=
    max_eq_right (Int.natCast_nonneg _)
  rw [hml]
  have hmin : min ((((remove_extrema2 (transposeLL f)).length : ℤ)) / 2)
      ((remove_extrema2 (transposeLL f)).length : ℤ) =
      (((remove_extrema2 (transposeLL f)).length : ℤ)) / 2 :=
    min_eq_left (Int.ediv_le_self _ (Int.natCast_nonneg _))
  have hmax : max 0 ((((remove_extrema2 (transposeLL f)).length : ℤ)) / 2) =
      (((remove_extrema2 (transposeLL f)).length : ℤ)) / 2 :=
    max_eq_right (Int.ediv_nonneg (Int.natCast_nonneg _) (by norm_num))
  rw [hmin, hmax, sub_self, npRoll_zero, sub2_self]
  rfl

/-- Witness for C4: a 1 × 1 pair whose stored images coincide. -/
theorem claim4_witness :
    (OverlapViewer.set_images OverlapViewer.initState [[1]] [[1]]).1.imageItem =
      some (zeroLike
        ((OverlapViewer.set_images OverlapViewer.initState
            [[1]] [[1]]).1.first.getD [])) :=
  claim4_overlap_aligned_zero OverlapViewer.initState [[1]] [[1]] rfl

/-- Claim C5: circularly shifting an array along its first axis by the full
period `shape[0]` is the same as shifting by 0, and consequently
`OverlapViewer.update_image` displays the same difference image at the two
slider positions (0 and `shape[0]`) whose shift amounts differ by
`shape[0]`. -/
theorem claim5_roll_period :
    (∀ m : List (List ℚ), npRoll ((m.length : ℤ)) m = npRoll 0 m) ∧
    ∀ (st : OverlapViewer.State) (f s : Image),
      st.first = some f → st.second = some s →
      (OverlapViewer.update_image
          { st with slider := { st.slider with pos := 0 } }).1.imageItem =
        (OverlapViewer.update_image
          { st with slider := { st.slider with pos := (s.length : ℤ) } }).1.imageItem := by
  constructor
  · intro m
    simpa using npRoll_add_length (α := List ℚ) 0 m
  · intro st f s hf hs
    unfold OverlapViewer.update_image
    simp only [hf, hs]
    have h1 : ((s.length : ℤ) / 2 - 0) =
        ((s.length : ℤ) / 2 - (s.length : ℤ)) + (s.length : ℤ) := by ring
    rw [h1, npRoll_add_length]

/-- Witness for C5: a loaded 1 × 1 overlap state, positions 0 and 1. -/
theorem claim5_witness :
    (OverlapViewer.update_image
        { ov5 with slider := { ov5.slider with pos := 0 } }).1.imageItem =
      (OverlapViewer.update_image
        { ov5 with slider :=
            { ov5.slider with pos := (([[(2 : ℚ)]] : Image).length : ℤ) } }).1.imageItem :=
  claim5_roll_period.2 ov5 [[1]] [[2]] rfl rfl

/-- Claim C6: with a nonempty list of `N` filenames loaded, `SliceViewer`
displays, at every valid position `p` in `[0, N-1]`, exactly the image
decoded from `filenames[p]` (the reader's array, transposed); `load_files`
sets the slider range to `len(filenames) - 1`, resets the position to 0 and
renders file 0. -/
theorem claim6_slice_display (env : String → Image) (st : SliceViewer.State)
    (fns : List String) (hne : fns ≠ []) (p : ℕ) (hp : p < fns.length) :
    ((SliceViewer.load_files env st fns).slider.lo = 0 ∧
      (SliceViewer.load_files env st fns).slider.hi = (fns.length : ℤ) - 1 ∧
      (SliceViewer.load_files env st fns).slider.pos = 0 ∧
      (SliceViewer.load_files env st fns).imageItem =
        some (read_tiff env (fns.getD 0 default))) ∧
    (SliceViewer.update_image env
        { SliceViewer.load_files env st fns with
            slider := { (SliceViewer.load_files env st fns).slider with
              pos := (p : ℤ) } }).imageItem =
      some (read_tiff env (fns.getD p default)) := by
  have h1 : 0 < fns.length := List.length_pos.mpr hne
  have h' : (0 : ℤ) ≤ (fns.length : ℤ) - 1 := by
    have : (1 : ℤ) ≤ (fns.length : ℤ) := by exact_mod_cast h1
    linarith
  have hfe : fns.isEmpty = false := by
    cases fns with
    | nil => exact absurd rfl hne
    | cons a l => rfl
  have hload : SliceViewer.load_files env st fns =
      { slider := { lo := 0, hi := (fns.length : ℤ) - 1, pos := 0 },
        filenames := fns,
        imageItem := some (read_tiff env (fns.getD 0 default)) } := by
    simp [SliceViewer.load_files, SliceViewer.update_image, Slider.setRange,
      Slider.setPos, hfe, max_eq_right h', min_eq_left h']
  rw [hload]
  refine ⟨⟨rfl, rfl, rfl, rfl⟩, ?_⟩
  simp [SliceViewer.update_image, hfe]

/-- Witness for C6: two 1 × 1 files, position 1. -/
theorem claim6_witness :
    ((SliceViewer.load_files envImg2 SliceViewer.emptyState
        [fileA, fileB]).slider.lo = 0 ∧
      (SliceViewer.load_files envImg2 SliceViewer.emptyState
        [fileA, fileB]).slider.hi = (([fileA, fileB] : List String).length : ℤ) - 1 ∧
      (SliceViewer.load_files envImg2 SliceViewer.emptyState
        [fileA, fileB]).slider.pos = 0 ∧
      (SliceViewer.load_files envImg2 SliceViewer.emptyState
        [fileA, fileB]).imageItem =
        some (read_tiff envImg2 ([fileA, fileB].getD 0 default))) ∧
    (SliceViewer.update_image envImg2
        { SliceViewer.load_files envImg2 SliceViewer.emptyState [fileA, fileB] with
            slider := { (SliceViewer.load_files envImg2 SliceViewer.emptyState
              [fileA, fileB]).slider with pos := ((1 : ℕ) : ℤ) } }).imageItem =
      some (read_tiff envImg2 ([fileA, fileB].getD 1 default)) :=
  claim6_slice_display envImg2 SliceViewer.emptyState [fileA, fileB]
    (by simp) 1 (by norm_num)

/-! ### Facts about flat-field division by ones -/

lemma range_one_eq : List.range 1 = [0] := rfl

lemma zipWith_div_ones (row : List ℚ) (c : ℕ) (h : row.length = c) :
    List.zipWith (fun x y => x / y) row (List.replicate c 1) = row := by
  induction row generalizing c with
  | nil => subst h; rfl
  | cons x xs ih =>
    subst h
    simp only [List.length_cons, List.replicate_succ, List.zipWith_cons_cons,
      div_one]
    rw [ih xs.length rfl]

lemma divImg_ones (m : Image) (c : ℕ) (hc : ∀ row ∈ m, row.length = c) :
    divImg m (onesImg m.length c) = m := by
  unfold divImg onesImg
  induction m with
  | nil => rfl
  | cons row rows ih =>
    simp only [List.length_cons, List.replicate_succ, List.zipWith_cons_cons]
    refine congrArg₂ _ ?_ ?_
    · exact zipWith_div_ones row c (hc row (List.mem_cons_self row rows))
    · exact ih (fun q hq => hc q (List.mem_cons_of_mem row hq))

/-- Claim C7: `load_files` with a 10-frame dataset and `ffc_correction=True`
sets the slider range to `(0, 9)`; moving the slider to position 5 when the
flat frame is all ones displays the raw projection frame 5 unchanged. -/
theorem claim7_projection_scenario (env : String → DxDataset) (f : String)
    (hf : f ≠ "") (h10 : (env f).dims.getD 0 0 = 10) (r c : ℕ)
    (hflat : (env f).flats.headD [] = onesImg r c)
    (hlen : ((env f).proj 5).length = r)
    (hrow : ∀ row ∈ (env f).proj 5, row.length = c) :
    (ProjectionViewer.load_files env ProjectionViewer.initState f true).slider.lo
        = 0 ∧
    (ProjectionViewer.load_files env ProjectionViewer.initState f true).slider.hi
        = 9 ∧
    (ProjectionViewer.setValue env
        (ProjectionViewer.load_files env ProjectionViewer.initState f true)
        5).imageItem = some ((env f).proj 5) := by
  have htr : pyTruthy (some f) = true := by
    simp only [pyTruthy]
    exact bne_iff_ne.mpr hf
  have h10' : (env f).dims[0]?.getD 0 = 10 := by
    have h := h10
    rw [List.getD_eq_getD_get?] at h
    simpa using h
  have hload : ProjectionViewer.load_files env ProjectionViewer.initState f true =
      { slider := { lo := 0, hi := 9, pos := 0 },
        filenames := some f, ffc_correction := true,
        imageItem := some (divImg ((env f).proj 0) ((env f).flats.headD [])) } := by
    simp [ProjectionViewer.load_files, ProjectionViewer.update_image,
      ProjectionViewer.initState, Slider.setRange, Slider.setPos, htr, h10',
      get_dx_dims, read_aps_32id, range_one_eq]
  rw [hload]
  refine ⟨rfl, rfl, ?_⟩
  have hset : ProjectionViewer.setValue env
      { slider := { lo := 0, hi := 9, pos := 0 },
        filenames := some f, ffc_correction := true,
        imageItem := some (divImg ((env f).proj 0) ((env f).flats.headD [])) } 5 =
      ProjectionViewer.update_image env
        { slider := { lo := 0, hi := 9, pos := 5 },
          filenames := some f, ffc_correction := true,
          imageItem := some (divImg ((env f).proj 0) ((env f).flats.headD [])) } := by
    simp [ProjectionViewer.setValue, Slider.setPos]
  rw [hset]
  have hupd : ProjectionViewer.update_image env
      { slider := { lo := 0, hi := 9, pos := 5 },
        filenames := some f, ffc_correction := true,
        imageItem := some (divImg ((env f).proj 0) ((env f).flats.headD [])) } =
      { slider := { lo := 0, hi := 9, pos := 5 },
        filenames := some f, ffc_correction := true,
        imageItem := some (divImg ((env f).proj 5) ((env f).flats.headD [])) } := by
    simp [ProjectionViewer.update_image, htr, read_aps_32id, range_one_eq]
  rw [hupd]
  show some (divImg ((env f).proj 5) ((env f).flats.headD [])) =
    some ((env f).proj 5)
  rw [hflat, ← hlen, divImg_ones _ c hrow]

/-- Witness for C7: a ten-frame dataset of 1 × 1 frames with an all-ones
flat frame. -/
theorem claim7_witness :
    (ProjectionViewer.load_files envDx ProjectionViewer.initState fileA
        true).slider.lo = 0 ∧
    (ProjectionViewer.load_files envDx ProjectionViewer.initState fileA
        true).slider.hi = 9 ∧
    (ProjectionViewer.setValue envDx
        (ProjectionViewer.load_files envDx ProjectionViewer.initState fileA true)
        5).imageItem = some ((envDx fileA).proj 5) :=
  claim7_projection_scenario envDx fileA (by simp [fileA]) rfl 1 1 rfl rfl
    (by intro row hrow
        simp only [envDx] at hrow
        simp only [List.mem_singleton] at hrow
        subst hrow
        rfl)

/-- Claim C9: in the unloaded state `update_image` renders nothing and
leaves the widget state unchanged: `ProjectionViewer` and `SliceViewer` do
nothing when `filenames` is unset, and `OverlapViewer` logs a warning when
either image is missing. -/
theorem claim9_unloaded_noop :
    (∀ (env : String → DxDataset) (st : ProjectionViewer.State),
        st.filenames = none → ProjectionViewer.update_image env st = st) ∧
    (∀ (env : String → Image) (st : SliceViewer.State),
        st.filenames = [] → SliceViewer.update_image env st = st) ∧
    ∀ st : OverlapViewer.State, st.first = none ∨ st.second = none →
        OverlapViewer.update_image st = (st, [noImagesWarn]) := by
  refine ⟨?_, ?_, ?_⟩
  · intro env st h
    simp [ProjectionViewer.update_image, h, pyTruthy]
  · intro env st h
    simp [SliceViewer.update_image, h]
  · intro st h
    unfold OverlapViewer.update_image
    rcases h with h | h
    · rw [h]
    · rw [h]; cases st.first <;> rfl

/-! ### Facts about the heap model: views are bijective reindexings -/

lemma getD_range_map {α : Type} (N : ℕ) (g : ℕ → α) {j : ℕ} (h : j < N) (d : α) :
    ((List.range N).map g).getD j d = g j := by
  rw [List.getD_eq_getElem _ _ (by simpa using h), List.getElem_map,
    List.getElem_range]

lemma range_map_getD (l : List ℚ) :
    (List.range l.length).map (fun j => l.getD j 0) = l := by
  apply List.ext_get
  · simp
  · intro n h1 h2
    rw [List.get_eq_getElem, List.get_eq_getElem, List.getElem_map,
      List.getElem_range, List.getD_eq_getElem l 0 h2]

lemma encode_decode {B a b : ℕ} (hb : b < B) :
    (a * B + b) % B = b ∧ (a * B + b) / B = a := by
  have hB : 0 < B := lt_of_le_of_lt (Nat.zero_le b) hb
  constructor
  · rw [mul_comm, Nat.mul_add_mod, Nat.mod_eq_of_lt hb]
  · rw [mul_comm, Nat.mul_add_div hB, Nat.div_eq_of_lt hb, add_zero]

lemma encode_lt {A B a b : ℕ} (ha : a < A) (hb : b < B) :
    a * B + b < A * B := by
  calc a * B + b < a * B + B := by omega
  _ = (a + 1) * B := by ring
  _ ≤ A * B := Nat.mul_le_mul_right B (by omega)

lemma transposeView_wf (r c b : ℕ) :
    (∀ i, i < (Mem.transposeView r c b).n →
        (Mem.transposeView r c b).idx i < (Mem.transposeView r c b).n ∧
        (Mem.transposeView r c b).inv ((Mem.transposeView r c b).idx i) = i) ∧
    ∀ j, j < (Mem.transposeView r c b).n →
        (Mem.transposeView r c b).inv j < (Mem.transposeView r c b).n ∧
        (Mem.transposeView r c b).idx ((Mem.transposeView r c b).inv j) = j := by
  simp only [Mem.transposeView]
  constructor
  · intro i hi
    have hr : 0 < r := by
      rcases Nat.eq_zero_or_pos r with h0 | h0
      · subst h0; simp at hi
      · exact h0
    have ha : i % r < r := Nat.mod_lt i hr
    have hb : i / r < c := by
      rw [Nat.div_lt_iff_lt_mul hr]; exact hi
    have hlt := encode_lt ha hb
    have hdec := encode_decode (a := i % r) hb
    refine ⟨by rw [mul_comm c r]; exact hlt, ?_⟩
    rw [hdec.1, hdec.2]
    calc i / r * r + i % r = r * (i / r) + i % r := by ring
    _ = i := Nat.div_add_mod i r
  · intro j hj
    have hc : 0 < c := by
      rcases Nat.eq_zero_or_pos c with h0 | h0
      · subst h0; simp at hj
      · exact h0
    have ha : j % c < c := Nat.mod_lt j hc
    have hb : j / c < r := by
      rw [Nat.div_lt_iff_lt_mul hc, mul_comm]; exact hj
    have hlt := encode_lt ha hb
    have hdec := encode_decode (a := j % c) hb
    refine ⟨hlt, ?_⟩
    rw [hdec.1, hdec.2]
    calc j / c * c + j % c = c * (j / c) + j % c := by ring
    _ = j := Nat.div_add_mod j c

lemma flipTransposeView_wf (r c b : ℕ) :
    (∀ i, i < (Mem.flipTransposeView r c b).n →
        (Mem.flipTransposeView r c b).idx i < (Mem.flipTransposeView r c b).n ∧
        (Mem.flipTransposeView r c b).inv
          ((Mem.flipTransposeView r c b).idx i) = i) ∧
    ∀ j, j < (Mem.flipTransposeView r c b).n →
        (Mem.flipTransposeView r c b).inv j < (Mem.flipTransposeView r c b).n ∧
        (Mem.flipTransposeView r c b).idx
          ((Mem.flipTransposeView r c b).inv j) = j := by
  simp only [Mem.flipTransposeView]
  constructor
  · intro i hi
    have hr : 0 < r := by
      rcases Nat.eq_zero_or_pos r with h0 | h0
      · subst h0; simp at hi
      · exact h0
    have ha : i % r < r := Nat.mod_lt i hr
    have hbq : i / r < c := by
      rw [Nat.div_lt_iff_lt_mul hr]; exact hi
    have hc0 : 0 < c := lt_of_le_of_lt (Nat.zero_le _) hbq
    have hb : c - 1 - i / r < c :=
      lt_of_le_of_lt (Nat.sub_le (c - 1) _) (Nat.sub_lt hc0 one_pos)
    have hlt := encode_lt ha hb
    have hdec := encode_decode (a := i % r) hb
    refine ⟨by rw [mul_comm c r]; exact hlt, ?_⟩
    rw [hdec.1, hdec.2]
    have hcc : c - 1 - (c - 1 - i / r) = i / r :=
      Nat.sub_sub_self (Nat.le_pred_of_lt hbq)
    rw [hcc]
    calc i / r * r + i % r = r * (i / r) + i % r := by ring
    _ = i := Nat.div_add_mod i r
  · intro j hj
    have hc : 0 < c := by
      rcases Nat.eq_zero_or_pos c with h0 | h0
      · subst h0; simp at hj
      · exact h0
    have ha : j % c < c := Nat.mod_lt j hc
    have haa : c - 1 - j % c < c :=
      lt_of_le_of_lt (Nat.sub_le (c - 1) _) (Nat.sub_lt hc one_pos)
    have hb : j / c < r := by
      rw [Nat.div_lt_iff_lt_mul hc, mul_comm]; exact hj
    have hlt := encode_lt haa hb
    have hdec := encode_decode (a := c - 1 - j % c) hb
    refine ⟨hlt, ?_⟩
    rw [hdec.1, hdec.2]
    have hcc : c - 1 - (c - 1 - j % c) = j % c :=
      Nat.sub_sub_self (Nat.le_pred_of_lt ha)
    rw [hcc]
    calc j / c * c + j % c = c * (j / c) + j % c := by ring
    _ = j := Nat.div_add_mod j c

lemma readView_length (σ : Mem.Store) (v : Mem.NDView) :
    (Mem.readView σ v).length = v.n := by
  simp [Mem.readView]

lemma readView_perm (σ : Mem.Store) (v : Mem.NDView)
    (hn : (σ v.buf).length = v.n)
    (hidx : ∀ i, i < v.n → v.idx i < v.n ∧ v.inv (v.idx i) = i)
    (hinv : ∀ j, j < v.n → v.inv j < v.n ∧ v.idx (v.inv j) = j) :
    (Mem.readView σ v).Perm (σ v.buf) := by
  have hmapmap : Mem.readView σ v =
      ((List.range v.n).map v.idx).map (fun j => (σ v.buf).getD j 0) := by
    rw [Mem.readView, List.map_map]
    rfl
  have hperm : ((List.range v.n).map v.idx).Perm (List.range v.n) := by
    rw [List.perm_ext_iff_of_nodup ?nd1 (List.nodup_range v.n)]
    case nd1 =>
      refine List.Nodup.map_on ?_ (List.nodup_range v.n)
      intro a ha b hb hab
      rw [List.mem_range] at ha hb
      rw [← (hidx a ha).2, ← (hidx b hb).2, hab]
    intro j
    constructor
    · intro hj
      rw [List.mem_map] at hj
      obtain ⟨i, hi, rfl⟩ := hj
      rw [List.mem_range] at hi ⊢
      exact (hidx i hi).1
    · intro hj
      rw [List.mem_range] at hj
      rw [List.mem_map]
      exact ⟨v.inv j, List.mem_range.mpr (hinv j hj).1, (hinv j hj).2⟩
  rw [hmapmap]
  have h3 := hperm.map (fun j => (σ v.buf).getD j 0)
  have h4 : (List.range v.n).map (fun j => (σ v.buf).getD j 0) = σ v.buf := by
    rw [← hn, range_map_getD]
  rw [h4] at h3
  exact h3

lemma map_eq_range_map (f : ℚ → ℚ) (l : List ℚ) :
    l.map f = (List.range l.length).map (fun j => f (l.getD j 0)) := by
  conv_lhs => rw [← range_map_getD l]
  rw [List.map_map]
  rfl

lemma percentile_perm {l l' : List ℚ} (h : l.Perm l') (q : ℚ) :
    percentile l q = percentile l' q := by
  have hsort : sortedOf l = sortedOf l' :=
    List.eq_of_perm_of_sorted
      ((sortedOf_perm l).trans (h.trans (sortedOf_perm l').symm))
      (sortedOf_sorted l) (sortedOf_sorted l')
  unfold percentile
  rw [h.length_eq, hsort]

lemma remove_extrema_mem_frame (σ : Mem.Store) (v : Mem.NDView) {b : ℕ}
    (hb : b ≠ v.buf) : (Mem.remove_extrema σ v).1 b = σ b := by
  simp only [Mem.remove_extrema, Mem.writeView]
  rw [if_neg hb]

lemma remove_extrema_mem_writes (σ : Mem.Store) (v : Mem.NDView)
    (hn : (σ v.buf).length = v.n)
    (hidx : ∀ i, i < v.n → v.idx i < v.n ∧ v.inv (v.idx i) = i)
    (hinv : ∀ j, j < v.n → v.inv j < v.n ∧ v.idx (v.inv j) = j) :
    (Mem.remove_extrema σ v).1 v.buf = remove_extrema (σ v.buf) := by
  have hperm := readView_perm σ v hn hidx hinv
  have hp99 : percentile (Mem.readView σ v) 99 = percentile (σ v.buf) 99 :=
    percentile_perm hperm 99
  have hp1 : percentile (Mem.readView σ v) 1 = percentile (σ v.buf) 1 :=
    percentile_perm hperm 1
  simp only [Mem.remove_extrema, Mem.writeView]
  rw [if_pos trivial]
  unfold remove_extrema
  rw [List.map_map]
  conv_rhs => rw [List.map_map, map_eq_range_map]
  apply List.map_congr_left
  intro j hj
  rw [List.mem_range] at hj
  have hjn : j < v.n := hn ▸ hj
  obtain ⟨hjinv, hjid⟩ := hinv j hjn
  rw [if_pos ⟨hjinv, hjid⟩]
  have hdlen : (Mem.readView σ v).length = v.n := readView_length σ v
  rw [getD_map _ _ (by rw [hdlen]; exact hjinv)]
  rw [hp99, hp1]
  rw [Mem.readView, getD_range_map _ _ hjinv, hjid]

lemma remove_extrema_mem_reads (σ : Mem.Store) (v : Mem.NDView)
    (hn : (σ v.buf).length = v.n)
    (hidx : ∀ i, i < v.n → v.idx i < v.n ∧ v.inv (v.idx i) = i) :
    Mem.readView (Mem.remove_extrema σ v).1 v =
      remove_extrema (Mem.readView σ v) := by
  simp only [Mem.remove_extrema]
  unfold remove_extrema
  conv_rhs => rw [List.map_map, map_eq_range_map, readView_length]
  rw [List.map_map]
  conv_lhs => rw [Mem.readView]
  apply List.map_congr_left
  intro i hi
  rw [List.mem_range] at hi
  obtain ⟨hii, hinvi⟩ := hidx i hi
  rw [Mem.writeView]
  rw [if_pos rfl]
  rw [getD_range_map _ _ (by rw [hn]; exact hii)]
  rw [hinvi]
  rw [if_pos ⟨hi, rfl⟩]
  rw [getD_map _ _ (by rw [readView_length]; exact hi)]

/-- Claim C10: `remove_extrema` mutates its argument in place and returns the
very array it was given (afterwards the argument holds the clamped values),
and `OverlapViewer.set_images`, which passes views of the caller's arrays
(`first.T` and `np.flipud(second.T)`) to `remove_extrema`, therefore
overwrites the caller-supplied buffers with their clamped contents. -/
theorem claim10_inplace_aliasing :
    (∀ (σ : Mem.Store) (v : Mem.NDView),
      (Mem.remove_extrema σ v).2 = v ∧
      (((σ v.buf).length = v.n ∧
          (∀ i, i < v.n → v.idx i < v.n ∧ v.inv (v.idx i) = i) ∧
          ∀ j, j < v.n → v.inv j < v.n ∧ v.idx (v.inv j) = j) →
        Mem.readView (Mem.remove_extrema σ v).1 v =
          remove_extrema (Mem.readView σ v))) ∧
    ∀ (σ : Mem.Store) (fb sb r1 c1 r2 c2 : ℕ), fb ≠ sb →
      (σ fb).length = r1 * c1 → (σ sb).length = r2 * c2 →
      (Mem.set_images σ fb sb r1 c1 r2 c2).1 fb = remove_extrema (σ fb) ∧
      (Mem.set_images σ fb sb r1 c1 r2 c2).1 sb = remove_extrema (σ sb) := by
  constructor
  · intro σ v
    refine ⟨rfl, ?_⟩
    rintro ⟨hn, hidx, _⟩
    exact remove_extrema_mem_reads σ v hn hidx
  · intro σ fb sb r1 c1 r2 c2 hne hfb hsb
    have hw1 := transposeView_wf r1 c1 fb
    have h1n : (σ (Mem.transposeView r1 c1 fb).buf).length =
        (Mem.transposeView r1 c1 fb).n := by
      simp only [Mem.transposeView]
      rw [hfb, Nat.mul_comm]
    have hfirst : (Mem.remove_extrema σ (Mem.transposeView r1 c1 fb)).1 fb =
        remove_extrema (σ fb) :=
      remove_extrema_mem_writes σ (Mem.transposeView r1 c1 fb) h1n hw1.1 hw1.2
    have hframe1 : (Mem.remove_extrema σ (Mem.transposeView r1 c1 fb)).1 sb =
        σ sb :=
      remove_extrema_mem_frame σ _ (Ne.symm hne)
    have hw2 := flipTransposeView_wf r2 c2 sb
    have h2n : ((Mem.remove_extrema σ (Mem.transposeView r1 c1 fb)).1
        (Mem.flipTransposeView r2 c2 sb).buf).length =
        (Mem.flipTransposeView r2 c2 sb).n := by
      simp only [Mem.flipTransposeView]
      rw [hframe1, hsb, Nat.mul_comm]
    have hsecond : (Mem.remove_extrema
        (Mem.remove_extrema σ (Mem.transposeView r1 c1 fb)).1
        (Mem.flipTransposeView r2 c2 sb)).1 sb =
        remove_extrema ((Mem.remove_extrema σ (Mem.transposeView r1 c1 fb)).1 sb) :=
      remove_extrema_mem_writes _ (Mem.flipTransposeView r2 c2 sb) h2n hw2.1 hw2.2
    have hframe2 : (Mem.remove_extrema
        (Mem.remove_extrema σ (Mem.transposeView r1 c1 fb)).1
        (Mem.flipTransposeView r2 c2 sb)).1 fb =
        (Mem.remove_extrema σ (Mem.transposeView r1 c1 fb)).1 fb :=
      remove_extrema_mem_frame _ _ hne
    constructor
    · simp only [Mem.set_images]
      rw [hframe2, hfirst]
    · simp only [Mem.set_images]
      rw [hsecond, hframe1]

/-- Witness for C10: a heap with two 1 × 2 arrays; the transposed view of
buffer 0 and the `set_images` call over buffers 0 and 1. -/
theorem claim10_witness :
    (Mem.remove_extrema storeW (Mem.transposeView 1 2 0)).2 =
      Mem.transposeView 1 2 0 ∧
    Mem.readView (Mem.remove_extrema storeW (Mem.transposeView 1 2 0)).1
        (Mem.transposeView 1 2 0) =
      remove_extrema (Mem.readView storeW (Mem.transposeView 1 2 0)) ∧
    (Mem.set_images storeW 0 1 1 2 1 2).1 0 = remove_extrema (storeW 0) ∧
    (Mem.set_images storeW 0 1 1 2 1 2).1 1 = remove_extrema (storeW 1) :=
  ⟨(claim10_inplace_aliasing.1 storeW (Mem.transposeView 1 2 0)).1,
   (claim10_inplace_aliasing.1 storeW (Mem.transposeView 1 2 0)).2
     ⟨by decide, by decide, by decide⟩,
   (claim10_inplace_aliasing.2 storeW 0 1 1 2 1 2 (by decide) (by decide)
     (by decide)).1,
   (claim10_inplace_aliasing.2 storeW 0 1 1 2 1 2 (by decide) (by decide)
     (by decide)).2⟩

/-! ### Facts about the stacked volume of load_data -/

lemma getD_map' {α β : Type} (f : α → β) (l : List α) {i : ℕ}
    (h : i < l.length) (d : α) (d' : β) :
    (l.map f).getD i d' = f (l.getD i d) := by
  rw [List.getD_eq_getElem _ _ (by simpa using h), List.getD_eq_getElem _ _ h,
    List.getElem_map]

lemma stack3_length (w h n : ℕ) (imgs : List Image) :
    (stack3 w h n imgs).length = w * h * n := by
  simp [stack3]

lemma stack3_getD (w h n : ℕ) (imgs : List Image) {x y i : ℕ}
    (hx : x < w) (hy : y < h) (hi : i < n) :
    (stack3 w h n imgs).getD ((x * h + y) * n + i) 0 =
      ((imgs.getD i []).getD x []).getD y 0 := by
  have hxy : x * h + y < w * h := encode_lt hx hy
  have hj : (x * h + y) * n + i < w * h * n := encode_lt hxy hi
  rw [stack3, getD_range_map _ _ hj]
  have e1 := encode_decode (a := x * h + y) hi
  rw [e1.1, e1.2]
  have e2 := encode_decode (a := x) hy
  rw [e2.1]
  have e3 : ((x * h + y) * n + i) / (h * n) = x := by
    have hsplit : (x * h + y) * n + i = x * (h * n) + (y * n + i) := by ring
    rw [hsplit]
    exact (encode_decode (a := x) (encode_lt hy hi)).2
  rw [e3]

lemma npRoll_one_getD (l : List ℚ) {j : ℕ} (hj : j < l.length) :
    (npRoll 1 l).getD j 0 = l.getD ((j + l.length - 1) % l.length) 0 := by
  have hl : l.length ≠ 0 := by omega
  unfold npRoll
  rw [if_neg hl]
  have hpos : (0 : ℤ) < (l.length : ℤ) := by
    exact_mod_cast Nat.pos_of_ne_zero hl
  have hrot : ((-1 : ℤ) % (l.length : ℤ)).toNat = l.length - 1 := by
    have h1 : (-1 : ℤ) % (l.length : ℤ) = (l.length : ℤ) - 1 := by
      have h2 : (-1 : ℤ) = ((l.length : ℤ) - 1) + (l.length : ℤ) * (-1) := by ring
      rw [h2, Int.add_mul_emod_self_left]
      exact Int.emod_eq_of_lt (by linarith) (by linarith)
    rw [h1]
    omega
  rw [hrot]
  rw [List.getD_eq_getElem _ _ (by rw [List.length_rotate]; exact hj)]
  rw [List.getElem_rotate]
  have hidx2 : j + (l.length - 1) = j + l.length - 1 := by omega
  rw [hidx2]
  rw [List.getD_eq_getElem _ _ (Nat.mod_lt _ (Nat.pos_of_ne_zero hl))]

lemma getD_zipWith (f : ℚ → ℚ → ℚ) (l1 l2 : List ℚ) {j : ℕ}
    (h1 : j < l1.length) (h2 : j < l2.length) :
    (List.zipWith f l1 l2).getD j 0 = f (l1.getD j 0) (l2.getD j 0) := by
  rw [List.getD_eq_getElem _ _
      (by rw [List.length_zipWith]; exact lt_min h1 h2),
    List.getElem_zipWith, List.getD_eq_getElem _ _ h1,
    List.getD_eq_getElem _ _ h2]

lemma getD_zip (l1 l2 : List ℚ) {j : ℕ} (h1 : j < l1.length)
    (h2 : j < l2.length) :
    (l1.zip l2).getD j (0, 0) = (l1.getD j 0, l2.getD j 0) := by
  have hz : j < (l1.zip l2).length := by
    rw [List.length_zip]; exact lt_min h1 h2
  rw [List.getD_eq_getElem _ _ hz, List.getElem_zip,
    List.getD_eq_getElem _ _ h1, List.getD_eq_getElem _ _ h2]

lemma gradientOf_getD (data : List ℚ) {j : ℕ} (hj : j < data.length) :
    (gradientOf data).getD j 0 =
      (data.getD j 0 - data.getD ((j + data.length - 1) % data.length) 0) ^ 2 := by
  unfold gradientOf
  rw [getD_zipWith _ _ _ hj (by rw [npRoll_length]; exact hj)]
  rw [npRoll_one_getD data hj]

lemma normGradient_getD (data : List ℚ) {j : ℕ} (hj : j < data.length) :
    (normGradient data).getD j 0 =
      ((data.getD j 0 - data.getD ((j + data.length - 1) % data.length) 0) ^ 2
          - listMin (gradientOf data)) /
        (listMax (gradientOf data) - listMin (gradientOf data)) * 255 := by
  unfold normGradient
  rw [getD_map _ _ (by rw [gradientOf_length]; exact hj)]
  rw [gradientOf_getD data hj]

/-- Claim C8: `VolumeViewer.load_data` subsamples the filename list by
`step`, reads each remaining file and subsamples it by `step` in both axes,
stacks the results along a new third axis into a `(width, height, num)`
volume, and builds the displayed RGBA volume so that the R, G and B channels
each hold the intensity and the alpha channel the squared gradient
`(I - roll(I, 1))^2` normalized to `[0, 255]`, each channel cast to
`ubyte`. -/
theorem claim8_volume_load_data (env : String → Image) (step : ℕ)
    (filenames : List String) (f0 : String) (rest : List String) (w h : ℕ)
    (hfns : everyNth step filenames = f0 :: rest)
    (hdims : ∀ f ∈ f0 :: rest,
      (subsample2 step (read_tiff env f)).length = w ∧
      ∀ row ∈ subsample2 step (read_tiff env f), row.length = h)
    (hw : 0 < w) (hh : 0 < h) :
    ∃ vol data,
      data = stack3 w h (rest.length + 1) (loadStack env step (f0 :: rest)) ∧
      VolumeViewer.load_data env step filenames =
        some ([w, h, rest.length + 1, 4], vol) ∧
      data.length = w * h * (rest.length + 1) ∧
      vol.length = data.length ∧
      (∀ x y i, x < w → y < h → i < rest.length + 1 →
        data.getD ((x * h + y) * (rest.length + 1) + i) 0 =
          (((loadStack env step (f0 :: rest)).getD i []).getD x []).getD y 0) ∧
      ∀ j, j < data.length →
        vol.getD j (0, 0, 0, 0) =
          (toUbyte (data.getD j 0), toUbyte (data.getD j 0),
           toUbyte (data.getD j 0),
           toUbyte (((data.getD j 0 -
                data.getD ((j + data.length - 1) % data.length) 0) ^ 2 -
              listMin (gradientOf data)) /
              (listMax (gradientOf data) - listMin (gradientOf data)) * 255)) := by
  set D := stack3 w h (rest.length + 1) (loadStack env step (f0 :: rest))
    with hD
  have h0 := hdims f0 (List.mem_cons_self f0 rest)
  have hwidth : (subsample2 step (read_tiff env f0)).length = w := h0.1
  have hheight : ((subsample2 step (read_tiff env f0)).headD []).length = h := by
    rcases hcase : subsample2 step (read_tiff env f0) with _ | ⟨r0, rs⟩
    · rw [hcase] at hwidth
      simp at hwidth
      omega
    · have hmem : r0 ∈ subsample2 step (read_tiff env f0) := by
        rw [hcase]; exact List.mem_cons_self r0 rs
      have := h0.2 r0 hmem
      simpa using this
  have hhead : (loadStack env step (f0 :: rest)).headD [] =
      subsample2 step (read_tiff env f0) := rfl
  have hguard : ∀ im ∈ loadStack env step (f0 :: rest),
      im.length = ((loadStack env step (f0 :: rest)).headD []).length ∧
      ∀ row ∈ im,
        row.length =
          (((loadStack env step (f0 :: rest)).headD []).headD []).length := by
    rw [hhead]
    intro im him
    rw [loadStack, List.mem_map] at him
    obtain ⟨f, hf, rfl⟩ := him
    refine ⟨?_, ?_⟩
    · rw [hwidth, (hdims f hf).1]
    · intro row hrow
      rw [hheight, (hdims f hf).2 row hrow]
  have hw' : ((loadStack env step (f0 :: rest)).headD []).length = w := by
    rw [hhead, hwidth]
  have hh' : (((loadStack env step (f0 :: rest)).headD []).headD []).length = h := by
    rw [hhead, hheight]
  have hld : VolumeViewer.load_data env step filenames =
      create_volume [w, h, rest.length + 1] D := by
    simp only [VolumeViewer.load_data, hfns]
    rw [if_pos hguard, hw', hh']
  have hDlen : D.length = w * h * (rest.length + 1) := by
    rw [hD]; exact stack3_length w h (rest.length + 1) _
  have hpos : 0 < D.length := by
    rw [hDlen]
    exact Nat.mul_pos (Nat.mul_pos hw hh) (Nat.succ_pos rest.length)
  have hDne : D.isEmpty = false := by
    cases hc : D with
    | nil => rw [hc] at hpos; simp at hpos
    | cons a l => rfl
  have hcv : create_volume [w, h, rest.length + 1] D =
      some ([w, h, rest.length + 1, 4],
        (D.zip (normGradient D)).map
          (fun p => (toUbyte p.1, toUbyte p.1, toUbyte p.1, toUbyte p.2))) := by
    simp [create_volume, hDne]
  refine ⟨(D.zip (normGradient D)).map
      (fun p => (toUbyte p.1, toUbyte p.1, toUbyte p.1, toUbyte p.2)),
    D, rfl, by rw [hld, hcv], hDlen, ?_, ?_, ?_⟩
  · rw [List.length_map, List.length_zip, normGradient_length, min_self]
  · intro x y i hx hy hi
    rw [hD]
    exact stack3_getD w h (rest.length + 1) _ hx hy hi
  · intro j hj
    have hzl : j < (D.zip (normGradient D)).length := by
      rw [List.length_zip, normGradient_length, min_self]; exact hj
    have hnl : j < (normGradient D).length := by
      rw [normGradient_length]; exact hj
    rw [getD_map' _ _ hzl ((0 : ℚ), (0 : ℚ)) ((0 : ℕ), (0 : ℕ), (0 : ℕ), (0 : ℕ))]
    rw [getD_zip _ _ hj hnl]
    rw [normGradient_getD D hj]

/-- Witness for C8: two 1 × 1 files, step 1. -/
theorem claim8_witness :
    ∃ vol data,
      data = stack3 1 1 (([fileB] : List String).length + 1)
          (loadStack envImg2 1 (fileA :: [fileB])) ∧
      VolumeViewer.load_data envImg2 1 [fileA, fileB] =
        some ([1, 1, ([fileB] : List String).length + 1, 4], vol) ∧
      data.length = 1 * 1 * (([fileB] : List String).length + 1) ∧
      vol.length = data.length ∧
      (∀ x y i, x < 1 → y < 1 → i < ([fileB] : List String).length + 1 →
        data.getD ((x * 1 + y) * (([fileB] : List String).length + 1) + i) 0 =
          (((loadStack envImg2 1 (fileA :: [fileB])).getD i []).getD x []).getD
            y 0) ∧
      ∀ j, j < data.length →
        vol.getD j (0, 0, 0, 0) =
          (toUbyte (data.getD j 0), toUbyte (data.getD j 0),
           toUbyte (data.getD j 0),
           toUbyte (((data.getD j 0 -
                data.getD ((j + data.length - 1) % data.length) 0) ^ 2 -
              listMin (gradientOf data)) /
              (listMax (gradientOf data) - listMin (gradientOf data)) * 255)) :=
  claim8_volume_load_data envImg2 1 [fileA, fileB] fileA [fileB] 1 1 rfl
    (by decide) (by norm_num) (by norm_num)

/-- Witness for C9: the three freshly constructed (unloaded) widgets. -/
theorem claim9_witness :
    ProjectionViewer.update_image envDx ProjectionViewer.initState =
      ProjectionViewer.initState ∧
    SliceViewer.update_image envImg SliceViewer.emptyState =
      SliceViewer.emptyState ∧
    OverlapViewer.update_image OverlapViewer.initState =
      (OverlapViewer.initState, [noImagesWarn]) :=
  ⟨claim9_unloaded_noop.1 envDx ProjectionViewer.initState rfl,
   claim9_unloaded_noop.2.1 envImg SliceViewer.emptyState rfl,
   claim9_unloaded_noop.2.2 OverlapViewer.initState (Or.inl rfl)⟩

end Ufot

